import Mathlib

/-!
Verification of the Easy Connection relay server.

The server (src/unnamed/part_000) keeps two JavaScript Maps,
`waitingHosts : code -> ws` and `sessions : code -> { host, client }`,
and reacts to websocket events: `register_host`, `connect_to_host`,
`relay` and `ping` messages, the `close` event, the `pong` event, and a
periodic liveness sweep.

We embed the server shallowly: a websocket object is identified by a
numeric id, connection objects live in an association list keyed by id,
and the two registries are association lists keyed by the code string
(JavaScript `Map.set` overwrites the existing binding, `Map.get` returns
the bound value, `Map.delete` removes the binding; our `aset`, `alookup`
and `aerase` mirror this).  Handlers return the new server state plus
the list of `ws.send` calls they performed, as (target id, message)
pairs, in order.
-/

namespace EasyRelay

/-! ### Association lists with JavaScript `Map` semantics -/

/-- Lookup of a key, returning the first bound value (`Map.get`). -/
def alookup {κ α : Type} [DecidableEq κ] : List (κ × α) → κ → Option α
  | [], _ => none
  | (k', v) :: t, k => if k' = k then some v else alookup t k

/-- Binding update (`Map.set`): replaces the first binding of the key, or
appends a new binding at the end. -/
def aset {κ α : Type} [DecidableEq κ] : List (κ × α) → κ → α → List (κ × α)
  | [], k, v => [(k, v)]
  | (k', v') :: t, k, v => if k' = k then (k, v) :: t else (k', v') :: aset t k v

/-- Binding removal (`Map.delete`): removes the first binding of the key. -/
def aerase {κ α : Type} [DecidableEq κ] : List (κ × α) → κ → List (κ × α)
  | [], _ => []
  | (k', v') :: t, k => if k' = k then t else (k', v') :: aerase t k

/-- All keys distinct, the invariant a JavaScript `Map` maintains. -/
def nodupKeys {κ α : Type} [DecidableEq κ] : List (κ × α) → Bool
  | [] => true
  | (k, _) :: t => (alookup t k).isNone && nodupKeys t

/-! ### Data model -/

/-- The `ws.role` field: `null` at creation, later the string
"host" or "client". -/
inductive Role : Type
  | unbound
  | host
  | client
deriving DecidableEq, Repr

/-- One websocket connection object: the fields the server stores on
`ws` (`isAlive`, `sessionCode`, `role`, `deviceId`, `deviceName`),
together with the transport state (`readyState === WebSocket.OPEN`). -/
structure Conn : Type where
  isAlive : Bool
  sessionCode : Option String
  role : Role
  deviceId : Option String
  deviceName : Option String
  readyStateOpen : Bool
deriving DecidableEq, Repr

/-- Server-to-client messages, as in the JSON frames the server sends. -/
inductive SMsg : Type
  | pong
  | errorReply (message : String)
  | registered (code : String)
  | connectionFailed (reason : String)
  | peerConnected (peerId peerName : Option String)
  | connectedToHost (hostId hostName : Option String)
  | relayed (sender : Role) (data : String)
  | peerDisconnected
deriving DecidableEq, Repr

/-- Decoded client-to-server messages.  `unknownMsg` stands for any
decodable frame whose `type` tag is none of the four recognised ones.
Payload `data` of `relay` is opaque; we model it as a string. -/
inductive CMsg : Type
  | registerHostMsg (code deviceId deviceName : Option String)
  | connectToHostMsg (code deviceId deviceName : Option String)
  | relayMsg (data : String)
  | pingMsg
  | unknownMsg
deriving DecidableEq, Repr

/-- The whole mutable server state: the connection objects (keyed by a
stable numeric identity standing for JavaScript reference identity) and
the two registries `waitingHosts` and `sessions`. -/
structure ServerState : Type where
  conns : List (Nat × Conn)
  waitingHosts : List (String × Nat)
  sessions : List (String × Nat × Nat)
deriving DecidableEq, Repr

/-- The state before any connection arrives. -/
def initialState : ServerState := { conns := [], waitingHosts := [], sessions := [] }

/-- Dereference a connection id. -/
def getConn (st : ServerState) (wsId : Nat) : Option Conn :=
  alookup st.conns wsId

/-- Store an updated connection object under its id. -/
def setConn (st : ServerState) (wsId : Nat) (c : Conn) : ServerState :=
  { st with conns := aset st.conns wsId c }

/-- Role of a connection, if it exists. -/
def roleOf (st : ServerState) (wsId : Nat) : Option Role :=
  (getConn st wsId).map (fun c => c.role)

/-- Session code of a connection, if set. -/
def codeOf (st : ServerState) (wsId : Nat) : Option String :=
  (getConn st wsId).bind (fun c => c.sessionCode)

/-- Whether the connection's transport is open. -/
def connOpenB (st : ServerState) (wsId : Nat) : Bool :=
  match getConn st wsId with
  | some c => c.readyStateOpen
  | none => false

/-- A freshly accepted websocket: `ws.isAlive = true`,
`ws.sessionCode = null`, `ws.role = null`, no identity fields yet. -/
def initConn : Conn :=
  { isAlive := true, sessionCode := none, role := Role.unbound,
    deviceId := none, deviceName := none, readyStateOpen := true }

/-- The `wss.on connection` callback: create the connection object. -/
def newConnection (st : ServerState) (wsId : Nat) : ServerState :=
  setConn st wsId initConn

/-! ### Handlers, translated from src/unnamed/part_000 -/

/-- Failure text of `connect_to_host` (`connection_failed.reason`). -/
def hostNotFoundReason : String :=
  "No se encontró ningún PC con ese código. Verifica que el código sea correcto y que el otro PC tenga el acceso activado."

/-- `registerHost(ws, message)` (lines 96-125): reject a missing, empty
or non-9-character code as invalid; reject a code already bound in
`waitingHosts` as in use; otherwise set `ws.sessionCode`, `ws.role`,
`ws.deviceId`, `ws.deviceName`, insert into `waitingHosts`, and reply
`registered`. -/
def registerHost (st : ServerState) (wsId : Nat)
    (code deviceId deviceName : Option String) :
    ServerState × List (Nat × SMsg) :=
  match getConn st wsId with
  | none => (st, [])
  | some ws =>
    match code with
    | none => (st, [(wsId, SMsg.errorReply "Código inválido")])
    | some c =>
      if c.length = 9 then
        if (alookup st.waitingHosts c).isSome then
          (st, [(wsId, SMsg.errorReply "Código en uso")])
        else
          let ws' := { ws with sessionCode := some c, role := Role.host,
                               deviceId := deviceId, deviceName := deviceName }
          let st1 := setConn st wsId ws'
          ({ st1 with waitingHosts := aset st1.waitingHosts c wsId },
           [(wsId, SMsg.registered c)])
      else
        (st, [(wsId, SMsg.errorReply "Código inválido")])

/-- Result of `waitingHosts.get(code)` together with the code looked up;
`none` when the code is missing from the message or unbound. -/
def lookupHost (st : ServerState) (code : Option String) : Option (String × Nat) :=
  match code with
  | none => none
  | some c => (alookup st.waitingHosts c).map (fun h => (c, h))

/-- `connectToHost(ws, message)` (lines 127-163): fail with
`connection_failed` when no host is stored under the code or the stored
host's transport is not open; otherwise set the client fields on `ws`,
insert `(host, client)` into `sessions`, delete the code from
`waitingHosts`, then send `peer_connected` to the host and
`connected_to_host` (with the host's identity fields as they stand
after the updates) to the client. -/
def connectToHost (st : ServerState) (wsId : Nat)
    (code deviceId deviceName : Option String) :
    ServerState × List (Nat × SMsg) :=
  match lookupHost st code with
  | none => (st, [(wsId, SMsg.connectionFailed hostNotFoundReason)])
  | some (c, hostId) =>
    match getConn st hostId with
    | none => (st, [(wsId, SMsg.connectionFailed hostNotFoundReason)])
    | some hostWs =>
      if hostWs.readyStateOpen then
        match getConn st wsId with
        | none => (st, [])
        | some ws =>
          let ws' := { ws with sessionCode := some c, role := Role.client,
                               deviceId := deviceId, deviceName := deviceName }
          let st1 := setConn st wsId ws'
          let st2 := { st1 with sessions := aset st1.sessions c (hostId, wsId),
                                waitingHosts := aerase st1.waitingHosts c }
          let hostNow := (getConn st2 hostId).getD hostWs
          (st2, [(hostId, SMsg.peerConnected deviceId deviceName),
                 (wsId, SMsg.connectedToHost hostNow.deviceId hostNow.deviceName)])
      else
        (st, [(wsId, SMsg.connectionFailed hostNotFoundReason)])

/-- `relayData(ws, message)` (lines 165-178): look up the sender's
session; no session means no-op; otherwise forward `data` to the other
member (`session.client` when the sender's role is "host", else
`session.host`) as `relayed`, only if that target's transport is open. -/
def relayData (st : ServerState) (wsId : Nat) (data : String) :
    ServerState × List (Nat × SMsg) :=
  match getConn st wsId with
  | none => (st, [])
  | some ws =>
    match ws.sessionCode.bind (fun c => alookup st.sessions c) with
    | none => (st, [])
    | some (h, cl) =>
      let target := if ws.role = Role.host then cl else h
      match getConn st target with
      | some t =>
        if t.readyStateOpen then
          (st, [(target, SMsg.relayed ws.role data)])
        else (st, [])
      | none => (st, [])

/-- `handleDisconnect(ws)` (lines 180-200): nothing when
`ws.sessionCode` is null; delete the waiting entry and stop when `ws`
itself is the stored waiting host; otherwise, when a session exists
under the code, notify the other member (if open) with
`peer_disconnected` and delete the session. -/
def handleDisconnect (st : ServerState) (wsId : Nat) :
    ServerState × List (Nat × SMsg) :=
  match getConn st wsId with
  | none => (st, [])
  | some ws =>
    match ws.sessionCode with
    | none => (st, [])
    | some c =>
      if alookup st.waitingHosts c = some wsId then
        ({ st with waitingHosts := aerase st.waitingHosts c }, [])
      else
        match alookup st.sessions c with
        | none => (st, [])
        | some (h, cl) =>
          let other := if ws.role = Role.host then cl else h
          let out :=
            match getConn st other with
            | some o => if o.readyStateOpen then [(other, SMsg.peerDisconnected)] else []
            | none => []
          ({ st with sessions := aerase st.sessions c }, out)

/-- `handleMessage(ws, message)` (lines 77-94): dispatch on the type
tag; `ping` answers `pong`; an unrecognised tag falls through the
switch and does nothing. -/
def handleMessage (st : ServerState) (wsId : Nat) (m : CMsg) :
    ServerState × List (Nat × SMsg) :=
  match m with
  | CMsg.registerHostMsg c i n => registerHost st wsId c i n
  | CMsg.connectToHostMsg c i n => connectToHost st wsId c i n
  | CMsg.relayMsg d => relayData st wsId d
  | CMsg.pingMsg => (st, [(wsId, SMsg.pong)])
  | CMsg.unknownMsg => (st, [])

/-- The `ws.on message` callback (lines 56-64): `JSON.parse` inside
try/catch; an undecodable frame (`none`) is only logged and dropped. -/
def handleFrame (st : ServerState) (wsId : Nat) (frame : Option CMsg) :
    ServerState × List (Nat × SMsg) :=
  match frame with
  | none => (st, [])
  | some m => handleMessage st wsId m

/-- The `ws.on pong` callback: `ws.isAlive = true`. -/
def handlePong (st : ServerState) (wsId : Nat) : ServerState :=
  match getConn st wsId with
  | some ws => setConn st wsId { ws with isAlive := true }
  | none => st

/-- `ws.terminate()`: the transport is forcibly closed. -/
def terminateConn (st : ServerState) (wsId : Nat) : ServerState :=
  match getConn st wsId with
  | some ws => setConn st wsId { ws with readyStateOpen := false }
  | none => st

/-- One connection's step of the liveness sweep (lines 203-212): a
connection whose `isAlive` flag is false is torn down
(`handleDisconnect`) and terminated; otherwise its flag is cleared and
a probe (`ws.ping()`) is sent.  The boolean in the result records
whether the probe was sent. -/
def sweepConn (st : ServerState) (wsId : Nat) :
    ServerState × List (Nat × SMsg) × Bool :=
  match getConn st wsId with
  | none => (st, [], false)
  | some ws =>
    if ws.isAlive then
      (setConn st wsId { ws with isAlive := false }, [], true)
    else
      let r := handleDisconnect st wsId
      (terminateConn r.1 wsId, r.2, false)

/-- The `ws.on close` callback (lines 66-70): by the time it fires the
transport is closed; it runs `handleDisconnect`. -/
def closeEvent (st : ServerState) (wsId : Nat) : ServerState × List (Nat × SMsg) :=
  handleDisconnect (terminateConn st wsId) wsId

/-! ### Operations of the server, for stating invariants -/

/-- Every event the server reacts to, as one step of a transition
system: a new websocket connection, an inbound frame (possibly
undecodable), the transport close event, the liveness acknowledgment,
and one connection's share of a liveness sweep. -/
inductive Op : Type
  | connectOp (wsId : Nat)
  | frameOp (wsId : Nat) (frame : Option CMsg)
  | closeOp (wsId : Nat)
  | pongOp (wsId : Nat)
  | sweepOp (wsId : Nat)
deriving DecidableEq, Repr

/-- The step function of the server. -/
def step (st : ServerState) : Op → ServerState × List (Nat × SMsg)
  | Op.connectOp wsId => (newConnection st wsId, [])
  | Op.frameOp wsId fr => handleFrame st wsId fr
  | Op.closeOp wsId => closeEvent st wsId
  | Op.pongOp wsId => (handlePong st wsId, [])
  | Op.sweepOp wsId =>
    let r := sweepConn st wsId
    (r.1, r.2.1)

/-- Run a list of operations from a state, discarding outputs. -/
def runOps (st : ServerState) : List Op → ServerState
  | [] => st
  | op :: t => runOps (step st op).1 t

/-! ### Registry invariants -/

/-- Mutual exclusion between the two registries: no code bound in
`waitingHosts` is also bound in `sessions`. -/
def mutexB (st : ServerState) : Bool :=
  st.waitingHosts.all (fun p => (alookup st.sessions p.1).isNone)

/-- Both registries have distinct keys (true of a JavaScript `Map`). -/
def registriesWB (st : ServerState) : Bool :=
  nodupKeys st.waitingHosts && nodupKeys st.sessions

/-! ### Association list lemmas -/

theorem alookup_aset_self {κ α : Type} [DecidableEq κ] (l : List (κ × α)) (k : κ) (v : α) :
    alookup (aset l k v) k = some v := by
  induction l with
  | nil => simp [aset, alookup]
  | cons p t ih =>
    obtain ⟨k', v'⟩ := p
    by_cases h : k' = k
    · simp [aset, alookup, h]
    · simp [aset, alookup, h, ih]

theorem alookup_aset_ne {κ α : Type} [DecidableEq κ] (l : List (κ × α)) (k k' : κ) (v : α)
    (h : k' ≠ k) : alookup (aset l k v) k' = alookup l k' := by
  induction l with
  | nil => simp [aset, alookup, Ne.symm h]
  | cons p t ih =>
    obtain ⟨k₀, v₀⟩ := p
    by_cases h0 : k₀ = k
    · subst h0
      simp [aset, alookup, Ne.symm h]
    · simp [aset, alookup, h0, ih]

theorem mem_aset {κ α : Type} [DecidableEq κ] {l : List (κ × α)} {k : κ} {v : α}
    {p : κ × α} (hp : p ∈ aset l k v) : p = (k, v) ∨ p ∈ l := by
  induction l with
  | nil => simpa [aset] using hp
  | cons q t ih =>
    obtain ⟨k₀, v₀⟩ := q
    by_cases h0 : k₀ = k
    · simp only [aset, if_pos h0, List.mem_cons] at hp
      rcases hp with h | h
      · exact Or.inl h
      · exact Or.inr (List.mem_cons_of_mem _ h)
    · simp only [aset, if_neg h0, List.mem_cons] at hp
      rcases hp with h | h
      · exact Or.inr (by simp [h])
      · rcases ih h with h' | h'
        · exact Or.inl h'
        · exact Or.inr (List.mem_cons_of_mem _ h')

theorem mem_aerase {κ α : Type} [DecidableEq κ] {l : List (κ × α)} {k : κ}
    {p : κ × α} (hp : p ∈ aerase l k) : p ∈ l := by
  induction l with
  | nil => simp [aerase] at hp
  | cons q t ih =>
    obtain ⟨k₀, v₀⟩ := q
    by_cases h0 : k₀ = k
    · simp only [aerase, if_pos h0] at hp
      exact List.mem_cons_of_mem _ hp
    · simp only [aerase, if_neg h0, List.mem_cons] at hp
      rcases hp with h | h
      · exact by simp [h]
      · exact List.mem_cons_of_mem _ (ih h)

theorem alookup_isSome_of_mem {κ α : Type} [DecidableEq κ] {l : List (κ × α)}
    {p : κ × α} (hp : p ∈ l) : (alookup l p.1).isSome = true := by
  induction l with
  | nil => simp at hp
  | cons q t ih =>
    obtain ⟨k₀, v₀⟩ := q
    rcases List.mem_cons.mp hp with h | h
    · simp [alookup, h]
    · by_cases h0 : k₀ = p.1
      · simp [alookup, h0]
      · simp [alookup, h0, ih h]

theorem alookup_aerase_ne {κ α : Type} [DecidableEq κ] (l : List (κ × α)) (k k' : κ)
    (h : k' ≠ k) : alookup (aerase l k) k' = alookup l k' := by
  induction l with
  | nil => simp [aerase]
  | cons q t ih =>
    obtain ⟨k₀, v₀⟩ := q
    by_cases h0 : k₀ = k
    · subst h0
      simp [aerase, alookup, Ne.symm h]
    · simp [aerase, alookup, h0, ih]

theorem alookup_aerase_self {κ α : Type} [DecidableEq κ] (l : List (κ × α)) (k : κ)
    (h : nodupKeys l = true) : alookup (aerase l k) k = none := by
  induction l with
  | nil => simp [aerase, alookup]
  | cons q t ih =>
    obtain ⟨k₀, v₀⟩ := q
    simp only [nodupKeys, Bool.and_eq_true] at h
    by_cases h0 : k₀ = k
    · subst h0
      simpa [aerase, Option.isNone_iff_eq_none] using h.1
    · simp [aerase, alookup, h0, ih h.2]

theorem key_ne_of_mem_aerase {κ α : Type} [DecidableEq κ] {l : List (κ × α)} {k : κ}
    {p : κ × α} (hw : nodupKeys l = true) (hp : p ∈ aerase l k) : p.1 ≠ k := by
  induction l with
  | nil => simp [aerase] at hp
  | cons q t ih =>
    obtain ⟨k₀, v₀⟩ := q
    simp only [nodupKeys, Bool.and_eq_true] at hw
    by_cases h0 : k₀ = k
    · subst h0
      simp only [aerase, if_pos rfl] at hp
      intro hk
      have := alookup_isSome_of_mem hp
      rw [hk] at this
      rw [Option.isNone_iff_eq_none] at hw
      simp [hw.1] at this
    · simp only [aerase, if_neg h0, List.mem_cons] at hp
      rcases hp with h | h
      · simpa [h] using h0
      · exact ih hw.2 h

theorem nodupKeys_aset {κ α : Type} [DecidableEq κ] (l : List (κ × α)) (k : κ) (v : α)
    (h : nodupKeys l = true) : nodupKeys (aset l k v) = true := by
  induction l with
  | nil => simp [aset, nodupKeys, alookup]
  | cons q t ih =>
    obtain ⟨k₀, v₀⟩ := q
    simp only [nodupKeys, Bool.and_eq_true] at h
    by_cases h0 : k₀ = k
    · subst h0
      simp [aset, nodupKeys, h.1, h.2]
    · simp only [aset, if_neg h0, nodupKeys, Bool.and_eq_true]
      refine ⟨?_, ih h.2⟩
      rw [alookup_aset_ne _ _ _ _ h0]
      exact h.1

theorem nodupKeys_aerase {κ α : Type} [DecidableEq κ] (l : List (κ × α)) (k : κ)
    (h : nodupKeys l = true) : nodupKeys (aerase l k) = true := by
  induction l with
  | nil => simp [aerase, nodupKeys]
  | cons q t ih =>
    obtain ⟨k₀, v₀⟩ := q
    simp only [nodupKeys, Bool.and_eq_true] at h
    by_cases h0 : k₀ = k
    · subst h0
      simp [aerase, h.2]
    · simp only [aerase, if_neg h0, nodupKeys, Bool.and_eq_true]
      refine ⟨?_, ih h.2⟩
      by_cases h1 : k₀ = k
      · exact absurd h1 h0
      · rw [alookup_aerase_ne]
        · exact h.1
        · exact h0

/-- The code a `register_host` frame would register, if any. -/
def regCodeOf : Op → Option String
  | Op.frameOp _ (some (CMsg.registerHostMsg (some c) _ _)) => some c
  | _ => none

/-- An operation is benign for mutual exclusion unless it is a
`register_host` frame whose code is currently bound in `sessions`. -/
def okOp (st : ServerState) (op : Op) : Bool :=
  match regCodeOf op with
  | some c => (alookup st.sessions c).isNone
  | none => true

/-! ### How each operation touches the two registries -/

/-- Every step of the server changes the pair (waitingHosts, sessions)
in one of five ways: not at all; a registration insert (only when the
code was unbound in waitingHosts); an erase from waitingHosts; an erase
from sessions; or the pairing move (insert into sessions, erase from
waitingHosts).  The `regNew` case carries the fact that the inserted
code is unbound in sessions, which holds only for benign operations. -/
inductive RegShape (st st' : ServerState) : Prop
  | same : st'.waitingHosts = st.waitingHosts → st'.sessions = st.sessions →
      RegShape st st'
  | regNew (s : String) (wsId : Nat) :
      st'.waitingHosts = aset st.waitingHosts s wsId → st'.sessions = st.sessions →
      alookup st.sessions s = none → RegShape st st'
  | eraseW (s : String) : st'.waitingHosts = aerase st.waitingHosts s →
      st'.sessions = st.sessions → RegShape st st'
  | eraseS (s : String) : st'.waitingHosts = st.waitingHosts →
      st'.sessions = aerase st.sessions s → RegShape st st'
  | pairMove (s : String) (x : Nat × Nat) :
      st'.waitingHosts = aerase st.waitingHosts s →
      st'.sessions = aset st.sessions s x → RegShape st st'

theorem newConnection_registries (st : ServerState) (wsId : Nat) :
    (newConnection st wsId).waitingHosts = st.waitingHosts ∧
    (newConnection st wsId).sessions = st.sessions := ⟨rfl, rfl⟩

theorem handlePong_registries (st : ServerState) (wsId : Nat) :
    (handlePong st wsId).waitingHosts = st.waitingHosts ∧
    (handlePong st wsId).sessions = st.sessions := by
  unfold handlePong
  cases getConn st wsId <;> exact ⟨rfl, rfl⟩

theorem terminateConn_registries (st : ServerState) (wsId : Nat) :
    (terminateConn st wsId).waitingHosts = st.waitingHosts ∧
    (terminateConn st wsId).sessions = st.sessions := by
  unfold terminateConn
  cases getConn st wsId <;> exact ⟨rfl, rfl⟩

theorem relayData_state (st : ServerState) (wsId : Nat) (d : String) :
    (relayData st wsId d).1 = st := by
  unfold relayData
  split
  · rfl
  · split
    · rfl
    · dsimp only
      split
      · split <;> rfl
      · rfl

theorem registerHost_registries (st : ServerState) (wsId : Nat)
    (code did dn : Option String) :
    ((registerHost st wsId code did dn).1.waitingHosts = st.waitingHosts ∧
      (registerHost st wsId code did dn).1.sessions = st.sessions) ∨
    (∃ s, code = some s ∧ alookup st.waitingHosts s = none ∧
      (registerHost st wsId code did dn).1.waitingHosts = aset st.waitingHosts s wsId ∧
      (registerHost st wsId code did dn).1.sessions = st.sessions) := by
  unfold registerHost
  split
  next => exact Or.inl ⟨rfl, rfl⟩
  next ws hg =>
    split
    next => exact Or.inl ⟨rfl, rfl⟩
    next s =>
      split
      next hlen =>
        split
        next hmem => exact Or.inl ⟨rfl, rfl⟩
        next hmem =>
          exact Or.inr ⟨s, rfl, Option.not_isSome_iff_eq_none.mp hmem,
            by simp [setConn], by simp [setConn]⟩
      next hlen => exact Or.inl ⟨rfl, rfl⟩

theorem connectToHost_registries (st : ServerState) (wsId : Nat)
    (code did dn : Option String) :
    ((connectToHost st wsId code did dn).1.waitingHosts = st.waitingHosts ∧
      (connectToHost st wsId code did dn).1.sessions = st.sessions) ∨
    (∃ s hostId, lookupHost st code = some (s, hostId) ∧
      (connectToHost st wsId code did dn).1.waitingHosts = aerase st.waitingHosts s ∧
      (connectToHost st wsId code did dn).1.sessions = aset st.sessions s (hostId, wsId)) := by
  unfold connectToHost
  split
  next hl => exact Or.inl ⟨rfl, rfl⟩
  next c hostId hl =>
    split
    next => exact Or.inl ⟨rfl, rfl⟩
    next hostWs hg =>
      split
      next hopen =>
        split
        next => exact Or.inl ⟨rfl, rfl⟩
        next ws hws =>
          exact Or.inr ⟨c, hostId, hl, by simp [setConn], by simp [setConn]⟩
      next hopen => exact Or.inl ⟨rfl, rfl⟩

theorem handleDisconnect_registries (st : ServerState) (wsId : Nat) :
    ((handleDisconnect st wsId).1.waitingHosts = st.waitingHosts ∧
      (handleDisconnect st wsId).1.sessions = st.sessions) ∨
    (∃ s, (handleDisconnect st wsId).1.waitingHosts = aerase st.waitingHosts s ∧
      (handleDisconnect st wsId).1.sessions = st.sessions) ∨
    (∃ s, (handleDisconnect st wsId).1.waitingHosts = st.waitingHosts ∧
      (handleDisconnect st wsId).1.sessions = aerase st.sessions s) := by
  unfold handleDisconnect
  split
  next => exact Or.inl ⟨rfl, rfl⟩
  next ws hg =>
    split
    next => exact Or.inl ⟨rfl, rfl⟩
    next c hc =>
      split
      next hw => exact Or.inr (Or.inl ⟨c, rfl, rfl⟩)
      next hw =>
        split
        next => exact Or.inl ⟨rfl, rfl⟩
        next h cl hs => exact Or.inr (Or.inr ⟨c, rfl, rfl⟩)

/-! ### The mutual exclusion invariant and its preservation -/

theorem mutexB_iff (st : ServerState) :
    mutexB st = true ↔ ∀ p ∈ st.waitingHosts, alookup st.sessions p.1 = none := by
  unfold mutexB
  rw [List.all_eq_true]
  constructor
  · intro h p hp
    simpa [Option.isNone_iff_eq_none] using h p hp
  · intro h p hp
    simp [Option.isNone_iff_eq_none, h p hp]

theorem registriesWB_iff (st : ServerState) :
    registriesWB st = true ↔
      nodupKeys st.waitingHosts = true ∧ nodupKeys st.sessions = true := by
  unfold registriesWB
  rw [Bool.and_eq_true]

/-- Both invariants go through every registry shape a benign operation
can produce. -/
theorem invariants_of_regShape {st st' : ServerState} (hsh : RegShape st st')
    (hwf : registriesWB st = true) (hm : mutexB st = true) :
    mutexB st' = true ∧ registriesWB st' = true := by
  rw [registriesWB_iff] at hwf
  obtain ⟨hnw, hns⟩ := hwf
  rw [mutexB_iff] at hm
  cases hsh with
  | same h1 h2 =>
    constructor
    · rw [mutexB_iff]
      intro p hp
      rw [h1] at hp
      rw [h2]
      exact hm p hp
    · rw [registriesWB_iff, h1, h2]
      exact ⟨hnw, hns⟩
  | regNew s wsId h1 h2 hc =>
    constructor
    · rw [mutexB_iff]
      intro p hp
      rw [h1] at hp
      rw [h2]
      rcases mem_aset hp with h | h
      · rw [h]
        exact hc
      · exact hm p h
    · rw [registriesWB_iff, h1, h2]
      exact ⟨nodupKeys_aset _ _ _ hnw, hns⟩
  | eraseW s h1 h2 =>
    constructor
    · rw [mutexB_iff]
      intro p hp
      rw [h1] at hp
      rw [h2]
      exact hm p (mem_aerase hp)
    · rw [registriesWB_iff, h1, h2]
      exact ⟨nodupKeys_aerase _ _ hnw, hns⟩
  | eraseS s h1 h2 =>
    constructor
    · rw [mutexB_iff]
      intro p hp
      rw [h1] at hp
      rw [h2]
      by_cases h : p.1 = s
      · rw [h]
        exact alookup_aerase_self _ _ hns
      · rw [alookup_aerase_ne _ _ _ h]
        exact hm p hp
    · rw [registriesWB_iff, h1, h2]
      exact ⟨hnw, nodupKeys_aerase _ _ hns⟩
  | pairMove s x h1 h2 =>
    constructor
    · rw [mutexB_iff]
      intro p hp
      rw [h1] at hp
      rw [h2]
      have hne : p.1 ≠ s := key_ne_of_mem_aerase hnw hp
      rw [alookup_aset_ne _ _ _ _ hne]
      exact hm p (mem_aerase hp)
    · rw [registriesWB_iff, h1, h2]
      exact ⟨nodupKeys_aerase _ _ hnw, nodupKeys_aset _ _ _ hns⟩

theorem registerHost_shape (st : ServerState) (wsId : Nat)
    (code did dn : Option String)
    (hok : ∀ s, code = some s → alookup st.sessions s = none) :
    RegShape st (registerHost st wsId code did dn).1 := by
  rcases registerHost_registries st wsId code did dn with
    ⟨h1, h2⟩ | ⟨s, hc, _, h1, h2⟩
  · exact RegShape.same h1 h2
  · exact RegShape.regNew s wsId h1 h2 (hok s hc)

theorem connectToHost_shape (st : ServerState) (wsId : Nat)
    (code did dn : Option String) :
    RegShape st (connectToHost st wsId code did dn).1 := by
  rcases connectToHost_registries st wsId code did dn with
    ⟨h1, h2⟩ | ⟨s, hostId, _, h1, h2⟩
  · exact RegShape.same h1 h2
  · exact RegShape.pairMove s (hostId, wsId) h1 h2

theorem handleDisconnect_shape (st : ServerState) (wsId : Nat) :
    RegShape st (handleDisconnect st wsId).1 := by
  rcases handleDisconnect_registries st wsId with
    ⟨h1, h2⟩ | ⟨s, h1, h2⟩ | ⟨s, h1, h2⟩
  · exact RegShape.same h1 h2
  · exact RegShape.eraseW s h1 h2
  · exact RegShape.eraseS s h1 h2

theorem closeEvent_shape (st : ServerState) (wsId : Nat) :
    RegShape st (closeEvent st wsId).1 := by
  unfold closeEvent
  obtain ⟨hw, hs⟩ := terminateConn_registries st wsId
  rcases handleDisconnect_registries (terminateConn st wsId) wsId with
    ⟨h1, h2⟩ | ⟨s, h1, h2⟩ | ⟨s, h1, h2⟩
  · exact RegShape.same (by rw [h1, hw]) (by rw [h2, hs])
  · exact RegShape.eraseW s (by rw [h1, hw]) (by rw [h2, hs])
  · exact RegShape.eraseS s (by rw [h1, hw]) (by rw [h2, hs])

theorem sweepConn_shape (st : ServerState) (wsId : Nat) :
    RegShape st (sweepConn st wsId).1 := by
  unfold sweepConn
  split
  next => exact RegShape.same rfl rfl
  next ws hg =>
    split
    next ha => exact RegShape.same rfl rfl
    next ha =>
      obtain ⟨hw, hs⟩ := terminateConn_registries (handleDisconnect st wsId).1 wsId
      rcases handleDisconnect_registries st wsId with
        ⟨h1, h2⟩ | ⟨s, h1, h2⟩ | ⟨s, h1, h2⟩
      · exact RegShape.same (by rw [hw, h1]) (by rw [hs, h2])
      · exact RegShape.eraseW s (by rw [hw, h1]) (by rw [hs, h2])
      · exact RegShape.eraseS s (by rw [hw, h1]) (by rw [hs, h2])

/-- Every benign operation produces one of the benign registry shapes. -/
theorem step_shape (st : ServerState) (op : Op) (hok : okOp st op = true) :
    RegShape st (step st op).1 := by
  cases op with
  | connectOp wsId => exact RegShape.same rfl rfl
  | frameOp wsId fr =>
    cases fr with
    | none => exact RegShape.same rfl rfl
    | some m =>
      cases m with
      | registerHostMsg c i n =>
        show RegShape st (registerHost st wsId c i n).1
        apply registerHost_shape
        intro s hc
        subst hc
        simpa [okOp, regCodeOf, Option.isNone_iff_eq_none] using hok
      | connectToHostMsg c i n =>
        exact connectToHost_shape st wsId c i n
      | relayMsg d =>
        show RegShape st (relayData st wsId d).1
        rw [relayData_state]
        exact RegShape.same rfl rfl
      | pingMsg => exact RegShape.same rfl rfl
      | unknownMsg => exact RegShape.same rfl rfl
  | closeOp wsId => exact closeEvent_shape st wsId
  | pongOp wsId =>
    obtain ⟨h1, h2⟩ := handlePong_registries st wsId
    exact RegShape.same h1 h2
  | sweepOp wsId => exact sweepConn_shape st wsId

/-! ### Further helper lemmas -/

theorem getConn_setConn_self (st : ServerState) (wsId : Nat) (c : Conn) :
    getConn (setConn st wsId c) wsId = some c :=
  alookup_aset_self _ _ _

theorem handleDisconnect_conns (st : ServerState) (wsId : Nat) :
    (handleDisconnect st wsId).1.conns = st.conns := by
  unfold handleDisconnect
  split
  · rfl
  next ws hg =>
    split
    · rfl
    next c hc =>
      split
      next => rfl
      next =>
        split
        · rfl
        next => rfl

/-! ### Concrete scenario states -/

/-- Three fresh connections 0, 1, 2. -/
def stThree : ServerState :=
  runOps initialState [Op.connectOp 0, Op.connectOp 1, Op.connectOp 2]

/-- Connection 0 registered as host under "AAAABBBB1". -/
def stReg : ServerState :=
  runOps stThree
    [Op.frameOp 0 (some (CMsg.registerHostMsg (some "AAAABBBB1") (some "d0") (some "n0")))]

/-- Connection 1 paired with host 0 under "AAAABBBB1": a session is
active and the waiting entry is gone. -/
def stPair : ServerState :=
  runOps stReg
    [Op.frameOp 1 (some (CMsg.connectToHostMsg (some "AAAABBBB1") (some "d1") (some "n1")))]

/-- After the pairing, connection 2 registers the very same code: the
`waitingHosts.has` guard does not consult `sessions`, so this succeeds
and the code is now bound in both registries at once. -/
def stBoth : ServerState :=
  runOps stPair
    [Op.frameOp 2 (some (CMsg.registerHostMsg (some "AAAABBBB1") (some "d2") (some "n2")))]

/-! ### C1: registry mutual exclusion -/

/-- C1 (counterexample): a sequence of completed operations — three
connections arrive, 0 registers "AAAABBBB1", 1 pairs with it, then 2
registers "AAAABBBB1" again — leaves the code bound in `waitingHosts`
and in `sessions` simultaneously, so the mutual exclusion invariant as
claimed is violated by the code. -/
theorem mutex_violated_by_reregistration :
    (alookup stBoth.waitingHosts "AAAABBBB1").isSome = true ∧
    (alookup stBoth.sessions "AAAABBBB1").isSome = true := by
  decide

/-- C1 (amended): mutual exclusion is preserved by every completed
operation except a `register_host` whose code is currently bound in the
sessions map (`registerHost` checks only `waitingHosts`, so such a
registration succeeds and leaves the code in both registries).  For
every benign operation, a well-formed state satisfying the invariant
steps to a well-formed state satisfying the invariant. -/
theorem mutex_preserved_step (st : ServerState) (op : Op)
    (hwf : registriesWB st = true) (hm : mutexB st = true)
    (hok : okOp st op = true) :
    mutexB (step st op).1 = true ∧ registriesWB (step st op).1 = true :=
  invariants_of_regShape (step_shape st op hok) hwf hm

/-- C1 (witness): the preservation theorem applied to the pairing step
from the concrete registered state. -/
theorem mutex_preserved_step_witness :
    mutexB (step stReg
      (Op.frameOp 1 (some (CMsg.connectToHostMsg (some "AAAABBBB1") (some "d1") (some "n1"))))).1
      = true ∧
    registriesWB (step stReg
      (Op.frameOp 1 (some (CMsg.connectToHostMsg (some "AAAABBBB1") (some "d1") (some "n1"))))).1
      = true :=
  mutex_preserved_step stReg
    (Op.frameOp 1 (some (CMsg.connectToHostMsg (some "AAAABBBB1") (some "d1") (some "n1"))))
    (by decide) (by decide) (by decide)

/-! ### C3: registerHost contract -/

/-- C3 (counterexample): "AB" is a non-empty code not present in
`waitingHosts`, yet `registerHost` rejects it with the invalid-code
error instead of succeeding, because the code also enforces a fixed
length of 9. -/
theorem registerHost_rejects_short_code :
    registerHost stThree 0 (some "AB") (some "d0") (some "n0")
      = (stThree, [(0, SMsg.errorReply "Código inválido")]) ∧
    ("AB" : String) ≠ "" ∧
    alookup stThree.waitingHosts "AB" = none := by
  decide

/-- C3 (amended): `registerHost` fails with the code-in-use error iff
the code has length 9 and is already bound in `waitingHosts`; for every
length-9 code not so bound it succeeds — setting `role = Host`, storing
`deviceId` and `deviceName`, inserting the connection into
`waitingHosts` under the code, leaving `sessions` untouched, and
replying `registered` — and every other code (missing, empty, or of
length other than 9) fails with the invalid-code error. -/
theorem registerHost_contract (st : ServerState) (wsId : Nat)
    (code did dn : Option String) (ws : Conn)
    (hg : getConn st wsId = some ws) :
    (∀ s, code = some s → s.length = 9 → (alookup st.waitingHosts s).isSome = true →
      registerHost st wsId code did dn
        = (st, [(wsId, SMsg.errorReply "Código en uso")])) ∧
    (∀ s, code = some s → s.length = 9 → alookup st.waitingHosts s = none →
      (registerHost st wsId code did dn).2 = [(wsId, SMsg.registered s)] ∧
      getConn (registerHost st wsId code did dn).1 wsId
        = some { ws with sessionCode := some s, role := Role.host,
                         deviceId := did, deviceName := dn } ∧
      alookup (registerHost st wsId code did dn).1.waitingHosts s = some wsId ∧
      (registerHost st wsId code did dn).1.sessions = st.sessions) ∧
    ((code = none ∨ ∃ s, code = some s ∧ s.length ≠ 9) →
      registerHost st wsId code did dn
        = (st, [(wsId, SMsg.errorReply "Código inválido")])) := by
  refine ⟨?_, ?_, ?_⟩
  · intro s hc hlen hmem
    subst hc
    simp [registerHost, hg, hlen, hmem]
  · intro s hc hlen hnone
    subst hc
    have hg' : alookup st.conns wsId = some ws := hg
    refine ⟨?_, ?_, ?_, ?_⟩ <;>
      simp [registerHost, hg', hlen, hnone, setConn, getConn,
        alookup_aset_self]
  · intro h
    rcases h with h | ⟨s, hc, hlen⟩
    · subst h
      simp [registerHost, hg]
    · subst hc
      simp [registerHost, hg, hlen]

/-- C3 (witness): the contract applied to the fresh three-connection
state, registering "AAAABBBB1" on connection 0. -/
theorem registerHost_contract_witness :
    (registerHost stThree 0 (some "AAAABBBB1") (some "d0") (some "n0")).2
      = [(0, SMsg.registered "AAAABBBB1")] ∧
    getConn (registerHost stThree 0 (some "AAAABBBB1") (some "d0") (some "n0")).1 0
      = some { initConn with sessionCode := some "AAAABBBB1", role := Role.host,
                             deviceId := some "d0", deviceName := some "n0" } ∧
    alookup (registerHost stThree 0 (some "AAAABBBB1") (some "d0") (some "n0")).1.waitingHosts
      "AAAABBBB1" = some 0 ∧
    (registerHost stThree 0 (some "AAAABBBB1") (some "d0") (some "n0")).1.sessions
      = stThree.sessions :=
  (registerHost_contract stThree 0 (some "AAAABBBB1") (some "d0") (some "n0")
    initConn (by decide)).2.1 "AAAABBBB1" rfl (by decide) (by decide)

/-! ### C4: connectToHost contract -/

/-- C4: `connectToHost` fails with the host-not-found reply exactly
when no connection is stored in `waitingHosts` under the code (which
includes a missing code) or the stored connection's transport is no
longer open, and on failure the entire state — both registries
included — is unchanged.  On success it sets the caller's role to
Client and its `sessionCode`, stores the identity fields, removes the
code from `waitingHosts`, inserts `(host, client)` into `sessions`
under the code, and sends both notifications — `peer_connected` to the
host and `connected_to_host` to the client — before returning. -/
theorem connectToHost_contract (st : ServerState) (wsId : Nat)
    (code did dn : Option String) :
    (lookupHost st code = none →
      connectToHost st wsId code did dn
        = (st, [(wsId, SMsg.connectionFailed hostNotFoundReason)])) ∧
    (∀ s hostId hostWs, lookupHost st code = some (s, hostId) →
      getConn st hostId = some hostWs → hostWs.readyStateOpen = false →
      connectToHost st wsId code did dn
        = (st, [(wsId, SMsg.connectionFailed hostNotFoundReason)])) ∧
    (∀ s hostId hostWs ws, lookupHost st code = some (s, hostId) →
      getConn st hostId = some hostWs → hostWs.readyStateOpen = true →
      getConn st wsId = some ws → nodupKeys st.waitingHosts = true →
      getConn (connectToHost st wsId code did dn).1 wsId
          = some { ws with sessionCode := some s, role := Role.client,
                           deviceId := did, deviceName := dn } ∧
        alookup (connectToHost st wsId code did dn).1.waitingHosts s = none ∧
        alookup (connectToHost st wsId code did dn).1.sessions s = some (hostId, wsId) ∧
        ∃ hi hn, (connectToHost st wsId code did dn).2 =
          [(hostId, SMsg.peerConnected did dn), (wsId, SMsg.connectedToHost hi hn)]) := by
  refine ⟨?_, ?_, ?_⟩
  · intro hl
    simp [connectToHost, hl]
  · intro s hostId hostWs hl hg hopen
    simp [connectToHost, hl, hg, hopen]
  · intro s hostId hostWs ws hl hg hopen hws hnod
    have hws' : alookup st.conns wsId = some ws := hws
    have hg' : alookup st.conns hostId = some hostWs := hg
    refine ⟨?_, ?_, ?_, ?_⟩
    · simp [connectToHost, hl, hg', hopen, hws', setConn, getConn,
        alookup_aset_self]
    · simp [connectToHost, hl, hg', hopen, hws', setConn, getConn,
        alookup_aerase_self _ _ hnod]
    · simp [connectToHost, hl, hg', hopen, hws', setConn, getConn,
        alookup_aset_self]
    · simp only [connectToHost, hl, hg', hopen, hws', getConn, setConn,
        if_true]
      exact ⟨_, _, rfl⟩

/-- C4 (witness): the contract's success case applied to the concrete
registered state, pairing connection 1 with waiting host 0. -/
theorem connectToHost_contract_witness :
    getConn (connectToHost stReg 1 (some "AAAABBBB1") (some "d1") (some "n1")).1 1
        = some { initConn with sessionCode := some "AAAABBBB1", role := Role.client,
                               deviceId := some "d1", deviceName := some "n1" } ∧
      alookup (connectToHost stReg 1 (some "AAAABBBB1") (some "d1") (some "n1")).1.waitingHosts
        "AAAABBBB1" = none ∧
      alookup (connectToHost stReg 1 (some "AAAABBBB1") (some "d1") (some "n1")).1.sessions
        "AAAABBBB1" = some (0, 1) ∧
      ∃ hi hn, (connectToHost stReg 1 (some "AAAABBBB1") (some "d1") (some "n1")).2 =
        [(0, SMsg.peerConnected (some "d1") (some "n1")),
         (1, SMsg.connectedToHost hi hn)] :=
  (connectToHost_contract stReg 1 (some "AAAABBBB1") (some "d1") (some "n1")).2.2
    "AAAABBBB1" 0
    { initConn with sessionCode := some "AAAABBBB1", role := Role.host,
                    deviceId := some "d0", deviceName := some "n0" }
    initConn rfl (by decide) (by decide) (by decide) (by decide)

/-! ### C2: relay exactly-once delivery -/

/-- C2: in a paired state — the host connection's `sessionCode` points
at a session whose members are the host and the client, the host's role
is Host, and the client's transport is open — one `relay` message from
the host with payload P produces exactly the single send of
`relayed(from = host, data = P)` to the client connection, so the
payload reaches the client once and is never sent to any third
connection. -/
theorem relay_exactly_once (st : ServerState) (hostId clientId : Nat)
    (c : String) (payload : String) (hw cw : Conn)
    (hg : getConn st hostId = some hw) (hcode : hw.sessionCode = some c)
    (hrole : hw.role = Role.host)
    (hsess : alookup st.sessions c = some (hostId, clientId))
    (hgc : getConn st clientId = some cw) (hopen : cw.readyStateOpen = true) :
    relayData st hostId payload = (st, [(clientId, SMsg.relayed Role.host payload)]) ∧
    ∀ t m, (t, m) ∈ (relayData st hostId payload).2 →
      t = clientId ∧ m = SMsg.relayed Role.host payload := by
  have hgc' : alookup st.conns clientId = some cw := hgc
  have hg' : alookup st.conns hostId = some hw := hg
  have heq : relayData st hostId payload
      = (st, [(clientId, SMsg.relayed Role.host payload)]) := by
    simp [relayData, hg', hcode, hrole, hsess, hgc', hopen, getConn]
  refine ⟨heq, ?_⟩
  intro t m hm
  rw [heq] at hm
  simpa using hm

/-- C2 (witness): the theorem applied to the concrete paired state,
host 0 relaying payload "P" to client 1. -/
theorem relay_exactly_once_witness :
    relayData stPair 0 "P" = (stPair, [(1, SMsg.relayed Role.host "P")]) ∧
    ∀ t m, (t, m) ∈ (relayData stPair 0 "P").2 →
      t = 1 ∧ m = SMsg.relayed Role.host "P" :=
  relay_exactly_once stPair 0 1 "AAAABBBB1" "P"
    { initConn with sessionCode := some "AAAABBBB1", role := Role.host,
                    deviceId := some "d0", deviceName := some "n0" }
    { initConn with sessionCode := some "AAAABBBB1", role := Role.client,
                    deviceId := some "d1", deviceName := some "n1" }
    (by decide) (by decide) (by decide) (by decide) (by decide) (by decide)

/-! ### C7: relay is a pure forward -/

/-- C7: handling a `relay` message never changes the server state — not
the registries and not any field of any connection — and never stores
the payload; when the sender has no active session the handler produces
no output at all, and when the session peer's transport is not open the
message is dropped with no reply of any kind to the sender. -/
theorem relay_pure_forward (st : ServerState) (wsId : Nat) (payload : String) :
    (relayData st wsId payload).1 = st ∧
    (∀ ws, getConn st wsId = some ws →
      ws.sessionCode.bind (fun c => alookup st.sessions c) = none →
      (relayData st wsId payload).2 = []) ∧
    (∀ ws h cl, getConn st wsId = some ws →
      ws.sessionCode.bind (fun c => alookup st.sessions c) = some (h, cl) →
      ∀ t, getConn st (if ws.role = Role.host then cl else h) = some t →
        t.readyStateOpen = false → (relayData st wsId payload).2 = []) := by
  refine ⟨relayData_state st wsId payload, ?_, ?_⟩
  · intro ws hg hn
    simp [relayData, hg, hn]
  · intro ws h cl hg hs t hgt hcl
    simp [relayData, hg, hs, hgt, hcl]

/-- C7 (witness): the theorem applied to the state where connection 2
has a session code but no session (after registering over the paired
code), and to connection 0 in the fresh state with no session at all. -/
theorem relay_pure_forward_witness :
    (relayData stThree 0 "Q").1 = stThree ∧ (relayData stThree 0 "Q").2 = [] :=
  ⟨(relay_pure_forward stThree 0 "Q").1,
    (relay_pure_forward stThree 0 "Q").2.1 initConn (by decide) (by decide)⟩

/-! ### C5: role transitions -/

/-- The paired client 1 re-registers as a host under a fresh code: its
role and session code are overwritten. -/
def stRereg : ServerState :=
  runOps stPair
    [Op.frameOp 1 (some (CMsg.registerHostMsg (some "CCCCDDDD2") (some "d1") (some "n1")))]

/-- C5 (counterexample): connection 1 is a paired Client, yet a later
`register_host` message from it changes its role to Host and its
session code to the new code — the handlers never check the current
role, so role transitions are not one-way. -/
theorem role_rebinds_after_pairing :
    roleOf stPair 1 = some Role.client ∧
    codeOf stPair 1 = some "AAAABBBB1" ∧
    roleOf stRereg 1 = some Role.host ∧
    codeOf stRereg 1 = some "CCCCDDDD2" := by
  decide

/-- C5 (amended): every connection is created with role Unbound and no
session code, but the handlers do not enforce one-way transitions: a
successful `register_host` sets the connection's role to Host and a
successful `connect_to_host` sets it to Client regardless of the
current role, so a connection already bound as Host or Client can have
its role and sessionCode overwritten by a later message. -/
theorem roles_overwritten_by_rebinding :
    (∀ st wsId, roleOf (newConnection st wsId) wsId = some Role.unbound ∧
      codeOf (newConnection st wsId) wsId = none) ∧
    (∀ st wsId ws s did dn, getConn st wsId = some ws → s.length = 9 →
      alookup st.waitingHosts s = none →
      roleOf (registerHost st wsId (some s) did dn).1 wsId = some Role.host ∧
      codeOf (registerHost st wsId (some s) did dn).1 wsId = some s) ∧
    (∀ st wsId ws s hostId hostWs did dn, getConn st wsId = some ws →
      alookup st.waitingHosts s = some hostId → getConn st hostId = some hostWs →
      hostWs.readyStateOpen = true →
      roleOf (connectToHost st wsId (some s) did dn).1 wsId = some Role.client ∧
      codeOf (connectToHost st wsId (some s) did dn).1 wsId = some s) := by
  refine ⟨?_, ?_, ?_⟩
  · intro st wsId
    constructor <;> simp [roleOf, codeOf, newConnection, getConn_setConn_self, initConn]
  · intro st wsId ws s did dn hg hlen hnone
    have hg' : alookup st.conns wsId = some ws := hg
    constructor <;>
      simp [roleOf, codeOf, registerHost, getConn, hg', hlen, hnone, setConn,
        alookup_aset_self]
  · intro st wsId ws s hostId hostWs did dn hg hwait hgh hopen
    have hg' : alookup st.conns wsId = some ws := hg
    have hgh' : alookup st.conns hostId = some hostWs := hgh
    constructor <;>
      simp [roleOf, codeOf, connectToHost, lookupHost, getConn, hg', hgh', hwait,
        hopen, setConn, alookup_aset_self]

/-- C5 (witness): the overwrite applied to the paired client 1 itself,
registering a fresh code from the Client role. -/
theorem roles_overwritten_witness :
    roleOf (registerHost stPair 1 (some "CCCCDDDD2") (some "d1") (some "n1")).1 1
      = some Role.host ∧
    codeOf (registerHost stPair 1 (some "CCCCDDDD2") (some "d1") (some "n1")).1 1
      = some "CCCCDDDD2" :=
  roles_overwritten_by_rebinding.2.1 stPair 1
    { initConn with sessionCode := some "AAAABBBB1", role := Role.client,
                    deviceId := some "d1", deviceName := some "n1" }
    "CCCCDDDD2" (some "d1") (some "n1") (by decide) (by decide) (by decide)

/-! ### C6: teardown idempotence -/

/-- C6 (counterexample): in the reachable state `stBoth` the departing
connection 2 has its code in both registries.  Its first teardown only
removes the waiting entry and returns, while a second identical
teardown additionally deletes the session of connections 0 and 1 and
notifies connection 1 — so running teardown twice is not the same as
running it once. -/
theorem teardown_not_idempotent :
    (handleDisconnect stBoth 2).2 = [] ∧
    (handleDisconnect stBoth 2).1.sessions = [("AAAABBBB1", (0, 1))] ∧
    (handleDisconnect (handleDisconnect stBoth 2).1 2).1.sessions = [] ∧
    (handleDisconnect (handleDisconnect stBoth 2).1 2).2
      = [(1, SMsg.peerDisconnected)] := by
  decide

/-- C6 (amended): teardown is idempotent on every well-formed state in
which the departing connection's code is not simultaneously bound in
both registries (the situation the intended mutual-exclusion invariant
rules out but re-registration can produce); and it is a no-op — no
notification, no removal — when the connection has no session code, or
when the connection is not the stored waiting host and no session at
all exists under its code.  (A session under the code is torn down even
when this connection is not one of its members, so "no session on
behalf of conn" alone does not make it a no-op.) -/
theorem teardown_idempotent_in_wf_states (st : ServerState) (wsId : Nat) (ws : Conn)
    (hg : getConn st wsId = some ws) :
    (registriesWB st = true →
      (∀ s, ws.sessionCode = some s →
        ¬((alookup st.waitingHosts s).isSome = true ∧
          (alookup st.sessions s).isSome = true)) →
      handleDisconnect (handleDisconnect st wsId).1 wsId
        = ((handleDisconnect st wsId).1, [])) ∧
    (ws.sessionCode = none → handleDisconnect st wsId = (st, [])) ∧
    (∀ s, ws.sessionCode = some s → alookup st.waitingHosts s ≠ some wsId →
      alookup st.sessions s = none → handleDisconnect st wsId = (st, [])) := by
  have hg' : alookup st.conns wsId = some ws := hg
  refine ⟨?_, ?_, ?_⟩
  · intro hwf hmx
    rw [registriesWB_iff] at hwf
    obtain ⟨hnw, hns⟩ := hwf
    cases hsc : ws.sessionCode with
    | none =>
      have h1 : handleDisconnect st wsId = (st, []) := by
        simp [handleDisconnect, hg, hsc]
      rw [h1]
      exact h1
    | some s =>
      by_cases hw : alookup st.waitingHosts s = some wsId
      · have h1 : (handleDisconnect st wsId).1
            = { st with waitingHosts := aerase st.waitingHosts s } := by
          simp [handleDisconnect, hg, hsc, hw]
        have hsess : alookup st.sessions s = none := by
          have := hmx s hsc
          rw [hw] at this
          simp only [Option.isSome_some, true_and] at this
          exact Option.not_isSome_iff_eq_none.mp this
        rw [h1]
        have hwaft : alookup (aerase st.waitingHosts s) s = none :=
          alookup_aerase_self _ _ hnw
        simp [handleDisconnect, getConn, hg', hsc, hwaft, hsess]
      · cases hsod : alookup st.sessions s with
        | none =>
          have h1 : handleDisconnect st wsId = (st, []) := by
            simp [handleDisconnect, hg, hsc, hw, hsod]
          rw [h1]
          exact h1
        | some pr =>
          have h1 : (handleDisconnect st wsId).1
              = { st with sessions := aerase st.sessions s } := by
            simp [handleDisconnect, hg, hsc, hw, hsod]
          rw [h1]
          have hsaft : alookup (aerase st.sessions s) s = none :=
            alookup_aerase_self _ _ hns
          simp [handleDisconnect, getConn, hg', hsc, hw, hsaft]
  · intro hsc
    simp [handleDisconnect, hg, hsc]
  · intro s hsc hw hsod
    simp [handleDisconnect, hg, hsc, hw, hsod]

/-- C6 (witness): teardown of the paired host 0 is idempotent in the
well-formed paired state. -/
theorem teardown_idempotent_witness :
    handleDisconnect (handleDisconnect stPair 0).1 0
      = ((handleDisconnect stPair 0).1, []) :=
  (teardown_idempotent_in_wf_states stPair 0
      { initConn with sessionCode := some "AAAABBBB1", role := Role.host,
                      deviceId := some "d0", deviceName := some "n0" }
      (by decide)).1 (by decide)
    (by
      intro s hs
      simp only [Option.some.injEq] at hs
      subst hs
      decide)

/-! ### C8: local recovery from malformed input -/

/-- C8: an undecodable inbound frame, and a decoded message whose type
tag is none of register_host / connect_to_host / relay / ping, are both
simply discarded: the whole server state — registries and every
connection — is unchanged, no reply is sent, and the receiving
connection's transport state is untouched (the handler never closes
it). -/
theorem bad_input_locally_discarded (st : ServerState) (wsId : Nat) :
    handleFrame st wsId none = (st, []) ∧
    handleFrame st wsId (some CMsg.unknownMsg) = (st, []) ∧
    connOpenB (handleFrame st wsId none).1 wsId = connOpenB st wsId ∧
    connOpenB (handleFrame st wsId (some CMsg.unknownMsg)).1 wsId
      = connOpenB st wsId :=
  ⟨rfl, rfl, rfl, rfl⟩

/-! ### C9: liveness sweep step -/

/-- C9: at a sweep, a connection whose alive flag is false is torn down
and terminated (its transport is closed and it receives no probe),
while a connection whose alive flag is true only has the flag cleared
and a probe sent — its transport state is untouched.  In particular a
connection marked alive (by a liveness acknowledgment) immediately
before a sweep survives that sweep, so a connection is never evicted
less than one full sweep period after it was last marked alive: only
the next sweep, one period later, can terminate it. -/
theorem liveness_sweep_step (st : ServerState) (wsId : Nat) (ws : Conn)
    (hg : getConn st wsId = some ws) :
    (ws.isAlive = false →
      sweepConn st wsId
        = (terminateConn (handleDisconnect st wsId).1 wsId,
           (handleDisconnect st wsId).2, false) ∧
      connOpenB (sweepConn st wsId).1 wsId = false) ∧
    (ws.isAlive = true →
      sweepConn st wsId = (setConn st wsId { ws with isAlive := false }, [], true) ∧
      connOpenB (sweepConn st wsId).1 wsId = ws.readyStateOpen) ∧
    connOpenB (sweepConn (handlePong st wsId) wsId).1 wsId = ws.readyStateOpen := by
  have hc : (handleDisconnect st wsId).1.conns = st.conns :=
    handleDisconnect_conns st wsId
  have hgr : getConn (handleDisconnect st wsId).1 wsId = some ws := by
    show alookup (handleDisconnect st wsId).1.conns wsId = some ws
    rw [hc]
    exact hg
  refine ⟨?_, ?_, ?_⟩
  · intro ha
    constructor
    · simp [sweepConn, hg, ha]
    · simp [sweepConn, hg, ha, terminateConn, hgr, connOpenB,
        getConn_setConn_self]
  · intro ha
    constructor
    · simp [sweepConn, hg, ha]
    · simp [sweepConn, hg, ha, connOpenB, getConn_setConn_self]
  · have hp : handlePong st wsId = setConn st wsId { ws with isAlive := true } := by
      simp [handlePong, hg]
    rw [hp]
    simp [sweepConn, getConn_setConn_self, connOpenB]

/-- C9 (witness): sweeping the paired state, where host 0 is alive:
the flag is cleared, a probe goes out, and 0 stays open. -/
theorem liveness_sweep_step_witness :
    sweepConn stPair 0
      = (setConn stPair 0
          { initConn with sessionCode := some "AAAABBBB1", role := Role.host,
                          deviceId := some "d0", deviceName := some "n0",
                          isAlive := false }, [], true) ∧
    connOpenB (sweepConn stPair 0).1 0 = true :=
  (liveness_sweep_step stPair 0
    { initConn with sessionCode := some "AAAABBBB1", role := Role.host,
                    deviceId := some "d0", deviceName := some "n0" }
    (by decide)).2.1 (by decide)

/-! ### C10: self-pairing edge case -/

/-- C10: when the waiting host itself sends `connect_to_host` with its
own code (its transport being open), the call succeeds: its role is
overwritten from Host to Client, its session code stays the code, the
code moves from waitingHosts into sessions with host and client both
equal to this connection, and the connection receives both
notifications — `peer_connected` and `connected_to_host` (the latter
echoing its own just-stored identity, because the host fields are read
after they were overwritten). -/
theorem self_pairing_succeeds (st : ServerState) (wsId : Nat) (ws : Conn)
    (c : String) (did dn : Option String) (hg : getConn st wsId = some ws)
    (hwait : alookup st.waitingHosts c = some wsId) (_hrole : ws.role = Role.host)
    (hopen : ws.readyStateOpen = true) (hnod : nodupKeys st.waitingHosts = true) :
    roleOf (connectToHost st wsId (some c) did dn).1 wsId = some Role.client ∧
    codeOf (connectToHost st wsId (some c) did dn).1 wsId = some c ∧
    alookup (connectToHost st wsId (some c) did dn).1.waitingHosts c = none ∧
    alookup (connectToHost st wsId (some c) did dn).1.sessions c
      = some (wsId, wsId) ∧
    (connectToHost st wsId (some c) did dn).2
      = [(wsId, SMsg.peerConnected did dn), (wsId, SMsg.connectedToHost did dn)] := by
  have hg' : alookup st.conns wsId = some ws := hg
  refine ⟨?_, ?_, ?_, ?_, ?_⟩
  · simp [roleOf, connectToHost, lookupHost, hwait, hg', hopen, getConn, setConn,
      alookup_aset_self]
  · simp [codeOf, connectToHost, lookupHost, hwait, hg', hopen, getConn, setConn,
      alookup_aset_self]
  · simp [connectToHost, lookupHost, hwait, hg', hopen, getConn, setConn,
      alookup_aerase_self _ _ hnod]
  · simp [connectToHost, lookupHost, hwait, hg', hopen, getConn, setConn,
      alookup_aset_self]
  · simp [connectToHost, lookupHost, hwait, hg', hopen, getConn, setConn,
      alookup_aset_self]

/-- C10 (witness): host 0, waiting under "AAAABBBB1" in the registered
state, connects to its own code. -/
theorem self_pairing_succeeds_witness :
    roleOf (connectToHost stReg 0 (some "AAAABBBB1") (some "dx") (some "nx")).1 0
      = some Role.client ∧
    codeOf (connectToHost stReg 0 (some "AAAABBBB1") (some "dx") (some "nx")).1 0
      = some "AAAABBBB1" ∧
    alookup (connectToHost stReg 0 (some "AAAABBBB1") (some "dx") (some "nx")).1.waitingHosts
      "AAAABBBB1" = none ∧
    alookup (connectToHost stReg 0 (some "AAAABBBB1") (some "dx") (some "nx")).1.sessions
      "AAAABBBB1" = some (0, 0) ∧
    (connectToHost stReg 0 (some "AAAABBBB1") (some "dx") (some "nx")).2
      = [(0, SMsg.peerConnected (some "dx") (some "nx")),
         (0, SMsg.connectedToHost (some "dx") (some "nx"))] :=
  self_pairing_succeeds stReg 0
    { initConn with sessionCode := some "AAAABBBB1", role := Role.host,
                    deviceId := some "d0", deviceName := some "n0" }
    "AAAABBBB1" (some "dx") (some "nx")
    (by decide) (by decide) (by decide) (by decide) (by decide)

end EasyRelay
